import Mathlib

/-!
Shallow embedding of the `moka-cached-proc` attribute macro (cold-moka
repository): the syntax model for the fragments of the Rust AST the macro
inspects (`syn` types and patterns), the helper analyses from
`src/helpers.rs`, the expansion pipeline from `src/lib.rs`, and an
operational model of the cache-access templates the macro emits.
-/

namespace ColdMoka

/-- Model of `syn::Type` restricted to the shapes the macro inspects.
A path type records its qualifying segments (printed with `::`
separators), the last segment's identifier, and the last segment's
angle-bracketed generic arguments (`[]` renders no argument list,
i.e. `PathArguments::None`). Tuple and reference types stand for the
non-path shapes the helpers treat generically. -/
inductive Ty : Type where
  | path (quals : List String) (last : String) (args : List Ty)
  | tuple (elems : List Ty)
  | ref (inner : Ty)

/-- Model of `syn::Pat` restricted to the shapes `param_names` matches:
identifier bindings (with their `mut` qualifier), reference patterns,
struct patterns (field name, sub-pattern), tuple patterns, tuple-struct
patterns, and a catch-all `wild` for every other irrefutable shape. -/
inductive Pat : Type where
  | ident (mutable : Bool) (name : String)
  | ref (p : Pat)
  | strct (fields : List (String × Pat))
  | tuple (elems : List Pat)
  | tupleStruct (head : String) (elems : List Pat)
  | wild

/-- Model of `syn::FnArg`: a receiver (`self`) or a typed pattern. -/
inductive FnArg : Type where
  | receiver
  | typed (pat : Pat) (ty : Ty)

/-- Model of `syn::ReturnType`. -/
inductive ReturnType : Type where
  | default
  | ty (t : Ty)

/-- The classification produced by the return-shape classifier
(`RetTurnTy` in `helpers.rs`). -/
inductive RetTurnTy : Type where
  | Result
  | Option
  | Bare
deriving DecidableEq, Repr

/-- Intersperse the token `","` between rendered argument lists, the way
`proc_macro2` prints comma-separated generic arguments. -/
def commaSep : List (List String) → List String
  | [] => []
  | [x] => x
  | x :: xs => x ++ ["," ] ++ commaSep xs

mutual

/-- Token list of a type, mimicking `proc_macro2::TokenStream::to_string`
(one string per token, later joined with single spaces): path segments
separated by `::`, generic arguments wrapped in `<` `>`. -/
def Ty.tokens : Ty → List String
  | .path quals last args =>
      (quals.flatMap fun s => [s, "::"]) ++ [last] ++
        (match args with
         | [] => []
         | _ => ["<"] ++ commaSep (Ty.tokensList args) ++ [">"])
  | .tuple elems => ["("] ++ commaSep (Ty.tokensList elems) ++ [")"]
  | .ref inner => ["&"] ++ inner.tokens

/-- Token lists of each type in a list. -/
def Ty.tokensList : List Ty → List (List String)
  | [] => []
  | t :: ts => t.tokens :: Ty.tokensList ts

end

/-- Join tokens with single spaces, as `TokenStream::to_string` does. -/
def joinTokens (ts : List String) : String :=
  String.intercalate " " ts

/-- The printed form of a type. -/
def Ty.toTokenString (t : Ty) : String :=
  joinTokens t.tokens

/-- Embedding of `return_fallible_ty` (`helpers.rs:98-112`): print the
return type (the unit type `()` when none is written) and compare the
whole printed string with the literals `"Result"` and `"Option"`. -/
def return_fallible_ty (output : ReturnType) : RetTurnTy :=
  let return_ty : String :=
    match output with
    | .default => "()"
    | .ty t => t.toTokenString
  if return_ty == "Result" then .Result
  else if return_ty == "Option" then .Option
  else .Bare

/-- The classifier the specification describes, for comparison: only the
outermost path segment's last identifier decides, ignoring any
module-qualification prefix and any generic arguments. -/
def return_fallible_ty_spec (output : ReturnType) : RetTurnTy :=
  match output with
  | .default => .Bare
  | .ty (.path _ last _) =>
      if last = "Result" then .Result
      else if last = "Option" then .Option
      else .Bare
  | .ty _ => .Bare

mutual

/-- Embedding of `param_names` (`helpers.rs:58-88`): leaf identifiers of
a pattern together with the destructure depth at which they occur. -/
def param_names : Pat → Nat → List (String × Nat)
  | .ident _ name, depth => [(name, depth)]
  | .ref p, depth => param_names p (depth + 1)
  | .strct fields, depth => param_names_fields fields (depth + 1)
  | .tuple elems, depth => param_names_list elems (depth + 1)
  | .tupleStruct _ elems, depth => param_names_list elems (depth + 1)
  | .wild, _ => []

/-- Leaves of each element of a tuple or tuple-struct pattern, in order. -/
def param_names_list : List Pat → Nat → List (String × Nat)
  | [], _ => []
  | p :: ps, depth => param_names p depth ++ param_names_list ps depth

/-- Leaves of each field sub-pattern of a struct pattern, in field order. -/
def param_names_fields : List (String × Pat) → Nat → List (String × Nat)
  | [], _ => []
  | (_, p) :: ps, depth => param_names p depth ++ param_names_fields ps depth

end

/-- Embedding of `ty_from_depth_info` (`helpers.rs:212-232`): unwrap a
type `depth` times through the first generic argument of the last path
segment; a path type without an angle-bracketed argument list is a panic
(`PathArguments not AngleBracketed`), while a non-path type is returned
unchanged. -/
def ty_from_depth_info : Nat → Ty → Except String Ty
  | 0, ty => .ok ty
  | depth + 1, .path _ _ (inner :: _) => ty_from_depth_info depth inner
  | _ + 1, .path _ _ [] => .error "PathArguments not AngleBracketed"
  | _ + 1, ty => .ok ty

/-- Embedding of `strip_mut_from_pat` (`helpers.rs:43-56`): remove the
mutability qualifier of a top-level identifier pattern; every other
pattern shape is returned unchanged. -/
def strip_mut_from_pat : Pat → Pat
  | .ident _ name => .ident false name
  | p => p

/-- Model of `syn::Signature` restricted to what the macro reads:
function identifier, asyncness, inputs and output. -/
structure Signature : Type where
  ident : String
  isAsync : Bool
  inputs : List FnArg
  output : ReturnType

/-- Model of `syn::ItemFn`: attributes, visibility, signature and the
body (the body is an opaque token text for the rewriter). -/
structure ItemFn : Type where
  attrs : List String
  vis : String
  sig : Signature
  body : String

/-- Embedding of `get_mut_signature` (`helpers.rs:24-41`): the same
signature with `strip_mut_from_pat` applied to every typed input;
receivers are passed through. -/
def get_mut_signature (signature : Signature) : Signature :=
  { signature with
    inputs := signature.inputs.map fun inp =>
      match inp with
      | .receiver => .receiver
      | .typed pat ty => .typed (strip_mut_from_pat pat) ty }

/-- Embedding of `get_input_names` (`helpers.rs:187-195`): concatenated
leaf bindings of every input, starting at depth 0; a receiver parameter
is the panic `methods ... are not supported`. -/
def get_input_names : List FnArg → Except String (List (String × Nat))
  | [] => .ok []
  | .receiver :: _ =>
      .error "methods (functions taking self) are not supported"
  | .typed pat _ :: rest => do
      let tail ← get_input_names rest
      .ok (param_names pat 0 ++ tail)

/-- Resolve each zipped (input, depth) pair's declared type at the
paired depth, in order. -/
def get_input_types_aux : List (FnArg × Nat) → Except String (List Ty)
  | [] => .ok []
  | (inp, depth) :: rest => do
      let ty ←
        match inp with
        | .receiver =>
            Except.error "methods (functions taking self) are not supported"
        | .typed _ ty => ty_from_depth_info depth ty
      let tail ← get_input_types_aux rest
      .ok (ty :: tail)

/-- Embedding of `get_input_types` (`helpers.rs:198-210`): zip the inputs
with the depth list (truncating to the shorter, as `Iterator::zip` does)
and resolve each input's declared type at the paired depth. -/
def get_input_types (inputs : List FnArg) (ty_depths_info : List Nat) :
    Except String (List Ty) :=
  get_input_types_aux (inputs.zip ty_depths_info)

/-- Embedding of `get_wrapped_type_for_function_call`
(`helpers.rs:240-257`): the argument expressions of the inner call, one
per input, each the `mut`-stripped pattern; the wildcard-like shapes are
the panic `unsupported pattern`. -/
def get_wrapped_type_for_function_call : List FnArg → Except String (List Pat)
  | [] => .ok []
  | .receiver :: _ =>
      .error "methods (functions taking self) are not supported"
  | .typed pat _ :: rest => do
      let tail ← get_wrapped_type_for_function_call rest
      match strip_mut_from_pat pat with
      | .wild => .error "unsupported pattern"
      | p => .ok (p :: tail)

/-- Embedding of `find_value_type` (`helpers.rs:118-146`): the stored
value type is the printed output type for `Bare`, and otherwise the
first generic argument of the last segment of the (path) return type,
with the three panics of the source as errors. -/
def find_value_type (return_ty : RetTurnTy) (output : ReturnType)
    (output_ty : Ty) : Except String Ty :=
  match return_ty with
  | .Bare => .ok output_ty
  | _ =>
    match output with
    | .default =>
        .error "function must return something for result or option attributes"
    | .ty (.path _ _ (inner :: _)) => .ok inner
    | .ty (.path _ _ []) => .error "function return type has no inner type"
    | .ty _ => .error "function return type too complex"

/-- The cache key type the key synthesizer produces: the empty token
stream, a key type parsed from its source text (external `syn` parsing
modelled as the injection of that text), or the tuple of argument
types. -/
inductive KeyTy : Type where
  | empty
  | parsed (src : String)
  | tupleOf (tys : List Ty)

/-- The key-construction expression: a convert block parsed from its
source text, or the tuple of argument identifiers. -/
inductive KeyExpr : Type where
  | block (src : String)
  | tupleOf (names : List String)

/-- Embedding of `make_cache_key_type` (`helpers.rs:149-175`), the
string-keyed synthesizer variant: match on the presence of `key`,
`convert` and the `type` hint, with the two panics of the source as
errors. -/
def make_cache_key_type (key convert cache_type : Option String)
    (input_tys : List Ty) (input_names : List String) :
    Except String (KeyTy × KeyExpr) :=
  match key, convert, cache_type with
  | some key_str, some convert_str, _ =>
      .ok (.parsed key_str, .block convert_str)
  | none, some convert_str, some _ =>
      .ok (.empty, .block convert_str)
  | none, none, _ =>
      .ok (.tupleOf input_tys, .tupleOf input_names)
  | some _, none, _ => .error "key requires convert to be set"
  | none, some _, none => .error "convert requires key or type to be set"

/-- Model of the parsed attribute options (`MacroArgs` in `lib.rs:50-66`):
the six optional fields `size`, `ttl`, `key`, `convert`,
`type` (field `cache_type`) and `create` (field `cache_create`). -/
structure MacroArgs : Type where
  size : Option Nat := none
  ttl : Option Nat := none
  key : Option String := none
  convert : Option String := none
  cache_type : Option String := none
  cache_create : Option String := none

/-- Names of the attribute options the argument parser accepts. -/
def acceptedFields : List String :=
  ["size", "ttl", "key", "convert", "type", "create"]

/-- Fold one attribute name/value pair into the options record; an
unrecognised name is a parse error, as the attribute framework rejects
unknown fields. -/
def MacroArgs.setField (acc : MacroArgs) (k v : String) :
    Except String MacroArgs :=
  match k with
  | "size" =>
      match v.toNat? with
      | some n => .ok { acc with size := some n }
      | none => .error "expected integer for size"
  | "ttl" =>
      match v.toNat? with
      | some n => .ok { acc with ttl := some n }
      | none => .error "expected integer for ttl"
  | "key" => .ok { acc with key := some v }
  | "convert" => .ok { acc with convert := some v }
  | "type" => .ok { acc with cache_type := some v }
  | "create" => .ok { acc with cache_create := some v }
  | other => .error ("Unknown field: " ++ other)

/-- Fold a list of attribute name/value pairs into an options record. -/
def MacroArgs.from_list_aux (acc : MacroArgs) :
    List (String × String) → Except String MacroArgs
  | [] => .ok acc
  | (k, v) :: rest => do
      let acc' ← MacroArgs.setField acc k v
      MacroArgs.from_list_aux acc' rest

/-- Model of the attribute-argument parse (`MacroArgs::from_list` via the
darling framework, `lib.rs:156-161`): every field optional, unknown
fields rejected. -/
def MacroArgs.from_list (kvs : List (String × String)) :
    Except String MacroArgs :=
  MacroArgs.from_list_aux {} kvs

/-- Split a character list at commas, the model of Rust's
`str::split(',')`. -/
def splitCommaAux : List Char → List Char → List String
  | [], acc => [String.mk acc.reverse]
  | c :: cs, acc =>
    if c = ',' then String.mk acc.reverse :: splitCommaAux cs []
    else splitCommaAux cs (c :: acc)

/-- Split a string at commas. -/
def splitComma (s : String) : List String :=
  splitCommaAux s.data []

/-- Whitespace test for the trim model. -/
def isWs (c : Char) : Bool :=
  c = ' ' || c = '\t' || c = '\n' || c = '\r'

/-- Model of Rust's `str::trim`: drop leading and trailing whitespace. -/
def trimChars (s : String) : String :=
  String.mk (((s.data.dropWhile isWs).reverse.dropWhile isWs).reverse)

/-- Model of Rust's `str::to_uppercase` on ASCII identifiers. -/
def upperString (s : String) : String :=
  String.mk (s.data.map Char.toUpper)

/-- Model of a freshly collected `HashSet`: the same elements in an
iteration order that may depend on the process-wide hasher seed.  Only
membership queries are ever made against it. -/
def hashSetOfList (seed : Nat) (xs : List String) : List String :=
  if seed % 2 = 0 then xs else xs.reverse

/-- Model of a freshly collected `HashSet` of indices, as
`hashSetOfList`. -/
def hashSetNat (seed : Nat) (xs : List Nat) : List Nat :=
  if seed % 2 = 0 then xs else xs.reverse

/-- Select the elements of a list whose position belongs to the index
set, in position order. -/
def selectByIdx {α : Type} (indexes : List Nat) (xs : List α) : List α :=
  ((xs.enum).filter fun p => indexes.contains p.1).map Prod.snd

/-- Modelled from the spec: the index-set variant of the key synthesizer
that `cached` (`lib.rs:214-220`) invokes with `cache_key_type_indexes`;
its definition is not among the sources under `src/` (the
`helpers.rs` there holds the string-keyed variant with a different
signature).  Per spec §4.4, when no convert expression is given the key
type is the tuple of the filtered argument types and the key expression
the tuple of the filtered argument identifiers; a convert expression,
when given, becomes the key-construction block, with the key type left
empty when the cache-type hint supplies the full cache type and the
filtered tuple of argument types otherwise. -/
def make_cache_key_type_filtered (indexes : List Nat)
    (convert cache_type : Option String) (input_tys : List Ty)
    (input_names : List String) : KeyTy × KeyExpr :=
  match convert, cache_type with
  | some convert_str, some _ => (.empty, .block convert_str)
  | some convert_str, none =>
      (.tupleOf (selectByIdx indexes input_tys), .block convert_str)
  | none, _ =>
      (.tupleOf (selectByIdx indexes input_tys),
       .tupleOf (selectByIdx indexes input_names))

/-- The derived cache type
`::cold_moka::moka::{sync,future}::Cache<K, V>`. -/
structure CacheTyExpr : Type where
  isAsync : Bool
  keyTy : KeyTy
  valueTy : Ty

/-- The cache construction expression: the derived
`Cache::builder()...build()` chain, or — when the `create` option is
supplied — the token produced by interpolating that option's `String`
value with `quote!`, which is a string literal. -/
inductive CreateExpr : Type where
  | builder (isAsync : Bool) (capacity : Nat) (ttl : Option Nat)
  | strLit (src : String)

/-- Embedding of `cache_creation_statement` (`lib.rs:327-374`): the
four-way matrix on (ttl present × async) selecting the sync or future
cache type, always setting the capacity and attaching the
time-to-live when present. -/
def cache_creation_statement (args : MacroArgs) (is_async : Bool)
    (cache_value_ty : Ty) (cache_key_ty : KeyTy) (size : Nat) :
    CacheTyExpr × CreateExpr :=
  match args.ttl, is_async with
  | some ttl, true =>
      (⟨true, cache_key_ty, cache_value_ty⟩, .builder true size (some ttl))
  | none, true =>
      (⟨true, cache_key_ty, cache_value_ty⟩, .builder true size none)
  | some ttl, false =>
      (⟨false, cache_key_ty, cache_value_ty⟩, .builder false size (some ttl))
  | none, false =>
      (⟨false, cache_key_ty, cache_value_ty⟩, .builder false size none)

/-- How the emitted access call hands the inner computation to the
cache: wrapped in a `|| ...` closure, or as the direct call expression
`f_inner(args)` (which a sync caller evaluates eagerly before the cache
lookup, while an async caller merely constructs an unpolled future). -/
inductive InnerCallWrap : Type where
  | closure
  | direct
deriving DecidableEq, Repr

/-- The cache-access expression `inner_function_call` emits: the cache
method name, how the inner invocation is passed, whether the call is
awaited, and the inner call's argument patterns. -/
structure AccessCall : Type where
  method : String
  wrap : InnerCallWrap
  awaited : Bool
  callArgs : List Pat

/-- Embedding of `inner_function_call` (`lib.rs:278-325`): the six-way
match on (return shape × async).  Note the sync `Bare` and `Result`
arms wrap the inner call in a closure while the sync `Option` arm
passes the call expression directly. -/
def inner_function_call (input_names : List Pat) (return_ty : RetTurnTy)
    (is_async : Bool) : AccessCall :=
  match return_ty, is_async with
  | .Bare, false => ⟨"get_with_by_ref", .closure, false, input_names⟩
  | .Bare, true => ⟨"get_with_by_ref", .direct, true, input_names⟩
  | .Result, false => ⟨"try_get_with_by_ref", .closure, false, input_names⟩
  | .Result, true => ⟨"try_get_with_by_ref", .direct, true, input_names⟩
  | .Option, false => ⟨"optionally_get_with_by_ref", .direct, false, input_names⟩
  | .Option, true => ⟨"optionally_get_with_by_ref", .direct, true, input_names⟩

/-- The inner (renamed) function of the expansion: its name, asyncness,
the original inputs and output, and the original body verbatim. -/
structure InnerFn : Type where
  name : String
  isAsync : Bool
  inputs : List FnArg
  output : ReturnType
  body : String

/-- The emitted static cache: its identifier, declared type, and
one-time construction expression. -/
structure CacheStatic : Type where
  ident : String
  cacheTy : CacheTyExpr
  create : CreateExpr

/-- The structured rendering of the token stream `cached` emits
(`lib.rs:259-273`): original attributes and visibility, the
`mut`-stripped outer signature, the nested inner function, the lazily
initialized cache static, the key-construction statement, and the
cache-access call. -/
structure Expanded : Type where
  attrs : List String
  vis : String
  outerSig : Signature
  innerFn : InnerFn
  cacheStatic : CacheStatic
  keyExpr : KeyExpr
  accessCall : AccessCall

/-- Embedding of the body of `cached` (`lib.rs:149-276`) after attribute
parsing: the full expansion pipeline, with the expansion-time panics as
errors.  The `seed` parameter stands for the process-wide hasher state
the standard `HashSet`s are built over. -/
def cachedExpand (seed : Nat) (args : MacroArgs) (input : ItemFn) :
    Except String Expanded := do
  let signature := input.sig
  let fn_ident := signature.ident
  let inputs := signature.inputs
  let output := signature.output
  let is_async := signature.isAsync
  let filter_args_by : Option (List String) :=
    args.key.map fun x => hashSetOfList seed ((splitComma x).map trimChars)
  let input_names_with_depth ← get_input_names inputs
  let ty_depths_info := input_names_with_depth.map Prod.snd
  let input_tys ← get_input_types inputs ty_depths_info
  let input_names := input_names_with_depth.map Prod.fst
  let cache_key_type_indexes : List Nat :=
    hashSetNat seed ((input_names.enum).filterMap fun p =>
      match filter_args_by with
      | some filter => if filter.contains (trimChars p.2) then some p.1 else none
      | none => some p.1)
  let inner_function_call_args ← get_wrapped_type_for_function_call inputs
  let output_ty : Ty :=
    match output with
    | .default => .tuple []
    | .ty t => t
  let return_ty := return_fallible_ty output
  let cache_value_ty ← find_value_type return_ty output output_ty
  let cache_ident := upperString fn_ident
  let (cache_key_ty, key_convert_block) :=
    make_cache_key_type_filtered cache_key_type_indexes args.convert
      args.cache_type input_tys input_names
  let size :=
    match inner_function_call_args with
    | [] => args.size.getD 1
    | _ => args.size.getD 1000
  let (cache_ty, derived_create) :=
    cache_creation_statement args is_async cache_value_ty cache_key_ty size
  let cache_create :=
    match args.cache_create with
    | some create => CreateExpr.strLit create
    | none => derived_create
  let no_cache_fn_ident := fn_ident ++ "_inner"
  let function_call :=
    inner_function_call inner_function_call_args return_ty is_async
  let signature' := get_mut_signature signature
  .ok
    { attrs := input.attrs
      vis := input.vis
      outerSig := signature'
      innerFn :=
        ⟨no_cache_fn_ident, is_async, inputs, output, input.body⟩
      cacheStatic := ⟨cache_ident, cache_ty, cache_create⟩
      keyExpr := key_convert_block
      accessCall := function_call }

/-- The whole macro invocation: parse the attribute arguments, then
expand. -/
def cachedMacro (seed : Nat) (kvs : List (String × String))
    (input : ItemFn) : Except String Expanded := do
  let args ← MacroArgs.from_list kvs
  cachedExpand seed args input

/-- Whether the emitted access call evaluates the inner invocation
before the cache can consult its stored entry: the argument is the
direct call expression and the call is synchronous (an async direct
argument only constructs a future, which the cache polls on a miss). -/
def AccessCall.isEager (ac : AccessCall) : Bool :=
  ac.wrap == .direct && !ac.awaited

/-- Runtime model of one generated cache: an association list from keys
to stored values, newest entry first. -/
abbrev CacheState := List (Nat × Nat)

/-- Contract of the external cache's lookup. -/
def cacheLookup (c : CacheState) (k : Nat) : Option Nat :=
  List.lookup k c

/-- Contract of `get_with_by_ref` for the `Bare` shape, instrumented
with the number of inner-function invocations the call performs: on a
hit the stored value is returned (the inner function having run already
when the argument was eager); on a miss the computation runs once and
its value is stored and returned. -/
def run_get_with (eager : Bool) (c : CacheState) (k : Nat)
    (compute : Nat) : Nat × CacheState × Nat :=
  match cacheLookup c k with
  | some v => (v, c, if eager then 1 else 0)
  | none => (compute, (k, compute) :: c, 1)

/-- Contract of `try_get_with_by_ref` for the `Result` shape: on a hit
the stored value is returned as a success; on a miss the computation
runs once, a success is stored and returned, and a failure is returned
without populating the cache. -/
def run_try_get_with (eager : Bool) (c : CacheState) (k : Nat)
    (compute : Except Nat Nat) : Except Nat Nat × CacheState × Nat :=
  match cacheLookup c k with
  | some v => (.ok v, c, if eager then 1 else 0)
  | none =>
    match compute with
    | .ok v => (.ok v, (k, v) :: c, 1)
    | .error e => (.error e, c, 1)

/-- Contract of `optionally_get_with_by_ref` for the `Option` shape: on
a hit the stored value is returned as present; on a miss the computation
runs once, a present value is stored and returned, and absence is
returned without populating the cache. -/
def run_optionally_get_with (eager : Bool) (c : CacheState) (k : Nat)
    (compute : Option Nat) : Option Nat × CacheState × Nat :=
  match cacheLookup c k with
  | some v => (some v, c, if eager then 1 else 0)
  | none =>
    match compute with
    | some v => (some v, (k, v) :: c, 1)
    | none => (none, c, 1)

/-- Total inner-function invocations over two sequential calls of the
`Option`-shaped wrapper with the same key and the same (deterministic)
inner computation, under the eagerness of a given access call. -/
def optionTwoCallCount (ac : AccessCall) (k : Nat)
    (compute : Option Nat) : Nat :=
  let r1 := run_optionally_get_with ac.isEager [] k compute
  let r2 := run_optionally_get_with ac.isEager r1.2.1 k compute
  r1.2.2 + r2.2.2

/-- Total inner-function invocations over two sequential calls of the
`Bare`-shaped wrapper with the same key and the same inner value. -/
def bareTwoCallCount (ac : AccessCall) (k : Nat) (compute : Nat) : Nat :=
  let r1 := run_get_with ac.isEager [] k compute
  let r2 := run_get_with ac.isEager r1.2.1 k compute
  r1.2.2 + r2.2.2

mutual

/-- Whether a pattern carries a `mut` qualifier anywhere, including
inside nested destructuring patterns. -/
def Pat.hasMut : Pat → Bool
  | .ident m _ => m
  | .ref p => p.hasMut
  | .strct fields => Pat.hasMutFields fields
  | .tuple elems => Pat.hasMutList elems
  | .tupleStruct _ elems => Pat.hasMutList elems
  | .wild => false

/-- Whether any pattern of a list carries a `mut` qualifier. -/
def Pat.hasMutList : List Pat → Bool
  | [] => false
  | p :: ps => p.hasMut || Pat.hasMutList ps

/-- Whether any field sub-pattern carries a `mut` qualifier. -/
def Pat.hasMutFields : List (String × Pat) → Bool
  | [] => false
  | (_, p) :: ps => p.hasMut || Pat.hasMutFields ps

end

/-- Two's-complement wraparound of an integer into the `i8` range. -/
def wrap8 (x : Int) : Int :=
  (x + 128) % 256 - 128

/-- Modelled semantics of the scenario body `{ i += 1; i as i32 }` of
`fn f(mut i: i8) -> i32`. -/
def scenarioBody (i : Int) : Int :=
  wrap8 (i + 1)

/-- The runtime key a default tuple key expression builds from the
current call's argument values, given a valuation of the leaf
identifiers. -/
def keyTupleValue (names : List String) (ρ : String → Nat) : List Nat :=
  names.map ρ

/-- The Rust type `i32`. -/
def tyI32 : Ty := .path [] "i32" []

/-- The Rust type `i64`. -/
def tyI64 : Ty := .path [] "i64" []

/-- The Rust type `i8`. -/
def tyI8 : Ty := .path [] "i8" []

/-- The Rust return type `Result<i32, i32>` of the test fixture
`fn result(inp: i32) -> Result<i32, i32>`. -/
def tyResultI32I32 : Ty := .path [] "Result" [tyI32, tyI32]

/-- The doc-example function `fn frobnicate(ctx: Context, a: T1, b: T2)`
used with the key filter "a, b". -/
def fnFrobnicate : ItemFn :=
  { attrs := []
    vis := "pub"
    sig :=
      ⟨"frobnicate", false,
        [.typed (.ident false "ctx") (.path [] "Context" []),
         .typed (.ident false "a") (.path [] "T1" []),
         .typed (.ident false "b") (.path [] "T2" [])],
        .ty tyI32⟩
    body := "{ a + b }" }

/-- The attribute arguments of the key-filter scenario. -/
def argsKeyAB : MacroArgs := { key := some "a, b" }

/-- The concrete scenario function `fn f(mut i: i8) -> i32`. -/
def fnMutScenario : ItemFn :=
  { attrs := []
    vis := ""
    sig := ⟨"f", false, [.typed (.ident true "i") tyI8], .ty tyI32⟩
    body := "{ i += 1; i as i32 }" }

/-- A signature whose single parameter destructures with a nested `mut`
binding: `fn g(Wrapper(mut x): Wrapper<i32>) -> i32`. -/
def sigNestedMut : Signature :=
  ⟨"g", false,
    [.typed (.tupleStruct "Wrapper" [.ident true "x"])
      (.path [] "Wrapper" [tyI32])],
    .ty tyI32⟩

/-- A parameter list whose first pattern destructures into two leaves:
`fn h((a, b): (i32, i64))`. -/
def inputsTuplePair : List FnArg :=
  [.typed (.tuple [.ident false "a", .ident false "b"])
    (.tuple [tyI32, tyI64])]

/-- A parameter list whose single pattern yields exactly one leaf:
`fn d(Wrapper(x): Wrapper<i32>)`. -/
def inputsWrapOne : List FnArg :=
  [.typed (.tupleStruct "Wrapper" [.ident false "x"])
    (.path [] "Wrapper" [tyI32])]

/-- The doc-example function `fn foo(bar: i32) -> i32`. -/
def fnFoo : ItemFn :=
  { attrs := []
    vis := "pub"
    sig := ⟨"foo", false, [.typed (.ident false "bar") tyI32], .ty tyI32⟩
    body := "{ bar + 1 }" }

/-- Inversion of a successful `Except` bind. -/
theorem except_bind_ok {ε α β : Type} {x : Except ε α} {f : α → Except ε β}
    {b : β} (h : (x >>= f) = .ok b) : ∃ a, x = .ok a ∧ f a = .ok b := by
  cases x with
  | error e => simp [Bind.bind, Except.bind] at h
  | ok a => exact ⟨a, rfl, by simpa [Bind.bind, Except.bind] using h⟩

/-- Membership in the hash-set model is independent of the hasher seed. -/
theorem contains_hashSetOfList (seed : Nat) (xs : List String) (a : String) :
    (hashSetOfList seed xs).contains a = xs.contains a := by
  unfold hashSetOfList
  split
  · rfl
  · simp [List.contains, List.elem_eq_mem]

/-- Membership in the index hash-set model is independent of the hasher
seed. -/
theorem contains_hashSetNat (seed : Nat) (xs : List Nat) (a : Nat) :
    (hashSetNat seed xs).contains a = xs.contains a := by
  unfold hashSetNat
  split
  · rfl
  · simp [List.contains, List.elem_eq_mem]

/-- A successful field assignment only happens for an accepted option
name. -/
theorem setField_mem_accepted (acc : MacroArgs) (k v : String)
    (r : MacroArgs) (h : MacroArgs.setField acc k v = .ok r) :
    k ∈ acceptedFields := by
  unfold MacroArgs.setField at h
  split at h
  · simp [acceptedFields]
  · simp [acceptedFields]
  · simp [acceptedFields]
  · simp [acceptedFields]
  · simp [acceptedFields]
  · simp [acceptedFields]
  · simp at h

/-- Every option name of a successfully parsed argument list is an
accepted field. -/
theorem from_list_aux_ok_fields (kvs : List (String × String))
    (acc args : MacroArgs) (h : MacroArgs.from_list_aux acc kvs = .ok args) :
    ∀ kv ∈ kvs, kv.1 ∈ acceptedFields := by
  induction kvs generalizing acc with
  | nil => simp
  | cons kv rest ih =>
    intro x hx
    rw [MacroArgs.from_list_aux] at h
    obtain ⟨acc', h1, h2⟩ := except_bind_ok h
    rcases List.mem_cons.mp hx with rfl | hx2
    · exact setField_mem_accepted acc x.1 x.2 acc' h1
    · exact ih acc' h2 x hx2

/-- C1: evaluating the return-shape classifier at `Result<i32, i32>`
(the return type of the repository's own `result` test fixture): the
code compares the full printed return type with the literal `"Result"`,
so a `Result` carrying generic arguments — and likewise a
module-qualified `::std::result::Result<T>` — is classified `Bare`,
while the specified rule (last identifier of the outermost path segment,
ignoring qualification and generic arguments) classifies it `Fallible`;
only a return type printing exactly as the bare identifier `Result` is
classified `Fallible` by the code. -/
theorem return_shape_classifier_flattens_generics :
    return_fallible_ty (.ty tyResultI32I32) = .Bare ∧
    return_fallible_ty_spec (.ty tyResultI32I32) = .Result ∧
    return_fallible_ty (.ty (.path ["std", "result"] "Result" [tyI32])) = .Bare ∧
    return_fallible_ty_spec (.ty (.path ["std", "result"] "Result" [tyI32])) = .Result ∧
    return_fallible_ty (.ty (.path [] "Option" [tyI32])) = .Bare ∧
    return_fallible_ty_spec (.ty (.path [] "Option" [tyI32])) = .Option ∧
    return_fallible_ty (.ty (.path [] "Result" [])) = .Result := by
  refine ⟨?_, rfl, ?_, rfl, ?_, rfl, ?_⟩ <;> decide

/-- C2: the sync `Option` arm of `inner_function_call` passes the inner
call expression `f_inner(args)` directly — eagerly evaluated before the
cache can answer — instead of the `|| f_inner(args)` closure the sync
`Bare` and `Result` arms use; consequently two sequential calls of the
generated wrapper with the same key invoke the inner function twice in
total (the sync `Bare` wrapper, for contrast, invokes it once), so the
second call does not avoid re-invoking the inner function. -/
theorem option_sync_access_call_is_eager :
    (inner_function_call [] .Option false).wrap = .direct ∧
    (inner_function_call [] .Bare false).wrap = .closure ∧
    (inner_function_call [] .Result false).wrap = .closure ∧
    (inner_function_call [] .Option false).isEager = true ∧
    optionTwoCallCount (inner_function_call [] .Option false) 0 (some 7) = 2 ∧
    optionTwoCallCount (inner_function_call [] .Option true) 0 (some 7) = 1 ∧
    bareTwoCallCount (inner_function_call [] .Bare false) 0 7 = 1 := by
  refine ⟨rfl, rfl, rfl, ?_, ?_, ?_, ?_⟩ <;> decide

/-- C5: the key synthesizer `make_cache_key_type` admits exactly the
three configurations the claim lists — (key, convert) gives the parsed
key type and the parsed convert block, (convert, type hint) without key
gives the empty key type and the parsed convert block, and (neither key
nor convert) gives the default tuple of argument types and argument
identifiers — and fails fast with a configuration error when key is
given without convert, or convert is given with neither key nor the
type hint. -/
theorem make_cache_key_type_three_configs (k c t : String)
    (tOpt : Option String) (tys : List Ty) (names : List String) :
    make_cache_key_type (some k) (some c) tOpt tys names =
      .ok (.parsed k, .block c) ∧
    make_cache_key_type none (some c) (some t) tys names =
      .ok (.empty, .block c) ∧
    make_cache_key_type none none tOpt tys names =
      .ok (.tupleOf tys, .tupleOf names) ∧
    make_cache_key_type (some k) none tOpt tys names =
      .error "key requires convert to be set" ∧
    make_cache_key_type none (some c) none tys names =
      .error "convert requires key or type to be set" := by
  cases tOpt <;> exact ⟨rfl, rfl, rfl, rfl, rfl⟩

/-- C6 counterexample: at depth 1 a non-path declared type — the tuple
type `(i32, i64)` or the reference type `&i32` — is silently returned
unchanged by `ty_from_depth_info` rather than failing, so the resolver
does have a silent un-unwrapped fallback for non-path type shapes. -/
theorem ty_from_depth_info_silent_on_non_path :
    ty_from_depth_info 1 (.tuple [tyI32, tyI64]) = .ok (.tuple [tyI32, tyI64]) ∧
    ty_from_depth_info 1 (.ref tyI32) = .ok (.ref tyI32) :=
  ⟨rfl, rfl⟩

/-- C6 amended: for positive depth, `ty_from_depth_info` fails with the
hard configuration error exactly when the type at the current level is a
path type without an angle-bracketed generic-argument list; a non-path
type (tuple or reference) at positive depth is silently returned
unchanged, not rejected. -/
theorem ty_from_depth_info_amended_behavior (d : Nat) (quals : List String)
    (last : String) (elems : List Ty) (t : Ty) :
    ty_from_depth_info (d + 1) (.path quals last []) =
      .error "PathArguments not AngleBracketed" ∧
    ty_from_depth_info (d + 1) (.tuple elems) = .ok (.tuple elems) ∧
    ty_from_depth_info (d + 1) (.ref t) = .ok (.ref t) :=
  ⟨rfl, rfl, rfl⟩

/-- C3: for `fn frobnicate(ctx: Context, a: T1, b: T2)` under the key
filter "a, b" (and no convert expression), the expansion's key type is
the tuple of only the filtered bindings' types and its key expression
the tuple of only the filtered identifiers; hence two calls whose
valuations agree on `a` and `b` build equal runtime keys regardless of
`ctx`, while calls differing in an included argument build different
keys. -/
theorem key_filter_restricts_default_tuple (ρ₁ ρ₂ : String → Nat) :
    ((cachedExpand 0 argsKeyAB fnFrobnicate).map fun e =>
        e.cacheStatic.cacheTy.keyTy) =
      .ok (.tupleOf [.path [] "T1" [], .path [] "T2" []]) ∧
    ((cachedExpand 0 argsKeyAB fnFrobnicate).map fun e => e.keyExpr) =
      .ok (.tupleOf ["a", "b"]) ∧
    (ρ₁ "a" = ρ₂ "a" → ρ₁ "b" = ρ₂ "b" →
      keyTupleValue ["a", "b"] ρ₁ = keyTupleValue ["a", "b"] ρ₂) ∧
    (ρ₁ "a" ≠ ρ₂ "a" →
      keyTupleValue ["a", "b"] ρ₁ ≠ keyTupleValue ["a", "b"] ρ₂) ∧
    (ρ₁ "b" ≠ ρ₂ "b" →
      keyTupleValue ["a", "b"] ρ₁ ≠ keyTupleValue ["a", "b"] ρ₂) := by
  refine ⟨rfl, rfl, ?_, ?_, ?_⟩
  · intro ha hb
    simp [keyTupleValue, ha, hb]
  · intro ha heq
    simp only [keyTupleValue, List.map, List.cons.injEq, and_true] at heq
    exact ha heq.1
  · intro hb heq
    simp only [keyTupleValue, List.map, List.cons.injEq, and_true] at heq
    exact hb heq.2

/-- Witness for the key-filter theorem: concrete valuations agreeing on
the filtered arguments build equal keys, and a valuation changed on the
included argument `a` builds a different key. -/
theorem key_filter_restricts_default_tuple_witness :
    keyTupleValue ["a", "b"] (fun _ => 0) = keyTupleValue ["a", "b"] (fun _ => 0) ∧
    keyTupleValue ["a", "b"] (fun _ => 0) ≠
      keyTupleValue ["a", "b"] (fun s => if s = "a" then 1 else 0) := by
  constructor
  · exact (key_filter_restricts_default_tuple (fun _ => 0) (fun _ => 0)).2.2.1
      rfl rfl
  · exact (key_filter_restricts_default_tuple (fun _ => 0)
      (fun s => if s = "a" then 1 else 0)).2.2.2.1 (by simp)

/-- C7 counterexample: `get_mut_signature` leaves a `mut` binding inside
a nested destructuring pattern — `fn g(Wrapper(mut x): Wrapper<i32>)` —
on the outer signature, so not every parameter-binding mutability
qualifier is stripped. -/
theorem get_mut_signature_keeps_nested_mut :
    (get_mut_signature sigNestedMut).inputs =
      [.typed (.tupleStruct "Wrapper" [.ident true "x"])
        (.path [] "Wrapper" [tyI32])] ∧
    Pat.hasMut (.tupleStruct "Wrapper" [.ident true "x"]) = true :=
  ⟨rfl, rfl⟩

/-- C7 amended: the outer signature is identical to the original except
that the mutability qualifier is stripped from parameters bound by a
top-level identifier pattern (nested destructuring patterns pass through
unchanged, `mut` included), while the nested inner function carries the
original inputs, output and body verbatim; for the concrete scenario
`fn f(mut i: i8) -> i32 { i += 1; i as i32 }` with default options the
outer parameter is not `mut`, the inner parameter is `mut`, and the
wrapper computes 6 from input 5, invoking the inner body once on the
empty cache. -/
theorem mut_stripped_top_level_only (sig : Signature) (m : Bool)
    (n hd : String) (ps : List Pat) (fs : List (String × Pat)) (p : Pat) :
    (get_mut_signature sig).ident = sig.ident ∧
    (get_mut_signature sig).isAsync = sig.isAsync ∧
    (get_mut_signature sig).output = sig.output ∧
    strip_mut_from_pat (.ident m n) = .ident false n ∧
    strip_mut_from_pat (.tupleStruct hd ps) = .tupleStruct hd ps ∧
    strip_mut_from_pat (.tuple ps) = .tuple ps ∧
    strip_mut_from_pat (.strct fs) = .strct fs ∧
    strip_mut_from_pat (.ref p) = .ref p ∧
    ((cachedExpand 0 {} fnMutScenario).map fun e => e.outerSig.inputs) =
      .ok [.typed (.ident false "i") tyI8] ∧
    ((cachedExpand 0 {} fnMutScenario).map fun e => e.innerFn.inputs) =
      .ok [.typed (.ident true "i") tyI8] ∧
    ((cachedExpand 0 {} fnMutScenario).map fun e => e.innerFn.body) =
      .ok fnMutScenario.body ∧
    ((cachedExpand 0 {} fnMutScenario).map fun e => e.outerSig.ident) =
      .ok "f" ∧
    scenarioBody 5 = 6 ∧
    run_get_with
      ((inner_function_call [.ident false "i"] .Bare false).isEager)
      [] 5 6 = (6, [(5, 6)], 1) := by
  cases m <;>
    exact ⟨rfl, rfl, rfl, rfl, rfl, rfl, rfl, rfl, rfl, rfl, rfl, rfl,
      by decide, by decide⟩

/-- C8: with the `create` option supplied, the emitted static's
initializer is the token produced by interpolating the option's
`String` value with `quote!` — a string literal holding the supplied
text, not the construction expression itself — while the static's
declared type is still the type derived from the (ttl × async) matrix
and the key/value types; without the option the derived builder chain
is emitted. -/
theorem create_override_interpolated_as_string_literal :
    ((cachedMacro 0 [("create", "Cache::new()")] fnFoo).map fun e =>
        e.cacheStatic.create) =
      .ok (.strLit "Cache::new()") ∧
    ((cachedMacro 0 [("create", "Cache::new()")] fnFoo).map fun e =>
        e.cacheStatic.cacheTy) =
      .ok ⟨false, .tupleOf [tyI32], tyI32⟩ ∧
    ((cachedMacro 0 [] fnFoo).map fun e => e.cacheStatic.create) =
      .ok (.builder false 1000 none) ∧
    ((cachedMacro 0 [] fnFoo).map fun e => e.cacheStatic.cacheTy) =
      .ok ⟨false, .tupleOf [tyI32], tyI32⟩ :=
  ⟨rfl, rfl, rfl, rfl⟩

/-- C4 counterexample: the parameter list `((a, b): (i32, i64))` yields
two leaf bindings at depth 1, but zipping the single parameter against
the two leaf depths resolves a single type (the whole tuple type,
silently un-unwrapped), so the extracted binding list and the resolved
type list do not have one (identifier, type) pair per leaf. -/
theorem multi_leaf_param_misaligns_type_list :
    get_input_names inputsTuplePair = .ok [("a", 1), ("b", 1)] ∧
    get_input_types inputsTuplePair [1, 1] = .ok [.tuple [tyI32, tyI64]] ∧
    (2 : Nat) ≠ 1 :=
  ⟨rfl, rfl, by decide⟩

/-- C4 amended: when every parameter's pattern yields exactly one leaf
binding, the extracted binding list and the resolved type list both have
one entry per parameter, in declaration order, and each resolved type is
the result of unwrapping that parameter's declared type exactly
depth-many times; a parameter destructuring into zero or several leaves
misaligns the zip of parameters against leaf depths and the claimed
correspondence fails. -/
theorem one_leaf_per_param_aligns_types (inputs : List FnArg)
    (h : ∀ arg ∈ inputs,
      ∃ p t, arg = FnArg.typed p t ∧ (param_names p 0).length = 1)
    (prs : List (String × Nat)) (tys : List Ty)
    (hn : get_input_names inputs = .ok prs)
    (ht : get_input_types inputs (prs.map Prod.snd) = .ok tys) :
    prs.length = inputs.length ∧ tys.length = inputs.length ∧
    List.Forall₂
      (fun arg dt => ∃ p t, arg = FnArg.typed p t ∧
        ty_from_depth_info (Prod.fst dt) t = Except.ok (Prod.snd dt))
      inputs ((prs.map Prod.snd).zip tys) := by
  induction inputs generalizing prs tys with
  | nil =>
    rw [get_input_names] at hn
    obtain rfl := (Except.ok.inj hn)
    rw [get_input_types] at ht
    obtain rfl := (Except.ok.inj ht)
    exact ⟨rfl, rfl, List.Forall₂.nil⟩
  | cons arg rest ih =>
    obtain ⟨p, t, rfl, hlen⟩ := h arg (List.mem_cons_self _ _)
    obtain ⟨nd, hnd⟩ := List.length_eq_one.mp hlen
    rw [get_input_names] at hn
    obtain ⟨tail, htail, hcons⟩ := except_bind_ok hn
    rw [hnd] at hcons
    obtain rfl := (Except.ok.inj hcons)
    simp only [List.singleton_append, List.map_cons] at ht ⊢
    rw [get_input_types, List.zip_cons_cons, get_input_types_aux] at ht
    obtain ⟨v, hv, ht2⟩ := except_bind_ok ht
    obtain ⟨vs, hvs, ht3⟩ := except_bind_ok ht2
    obtain rfl := (Except.ok.inj ht3)
    have hrest := ih (fun a ha => h a (List.mem_cons_of_mem _ ha)) tail vs
      htail (by rw [get_input_types]; exact hvs)
    refine ⟨by simp [hrest.1], by simp [hrest.2.1], ?_⟩
    rw [List.zip_cons_cons]
    exact List.Forall₂.cons ⟨p, t, rfl, hv⟩ hrest.2.2

/-- Witness for the aligned-binding theorem at the repository's own
destructuring fixture `fn destruct(Wrapper(x): Wrapper<i32>)`: one leaf
binding at depth 1, one resolved type `i32`. -/
theorem one_leaf_per_param_aligns_types_witness :
    [("x", 1)].length = inputsWrapOne.length ∧
    [tyI32].length = inputsWrapOne.length ∧
    List.Forall₂
      (fun arg dt => ∃ p t, arg = FnArg.typed p t ∧
        ty_from_depth_info (Prod.fst dt) t = Except.ok (Prod.snd dt))
      inputsWrapOne (([("x", 1)].map Prod.snd).zip [tyI32]) := by
  refine one_leaf_per_param_aligns_types inputsWrapOne ?_ [("x", 1)] [tyI32]
    rfl rfl
  intro arg harg
  simp only [inputsWrapOne, List.mem_singleton] at harg
  subst harg
  exact ⟨_, _, rfl, rfl⟩

/-- C9 counterexample: the options record has no name field at all:
supplying a name option makes the attribute parse fail, so no static
cache carrying the supplied identifier is ever emitted. -/
theorem name_option_fails_attribute_parse :
    MacroArgs.from_list [("name", "FOO")] = .error "Unknown field: name" ∧
    cachedMacro 0 [("name", "FOO")] fnFoo = .error "Unknown field: name" ∧
    "name" ∉ acceptedFields :=
  ⟨rfl, rfl, by decide⟩

/-- C9 amended: the generated static cache's identifier is always the
decorated function's name upper-cased; the accepted option set contains
no name entry, and any attribute argument list supplying one fails the
attribute parse instead of renaming the static. -/
theorem cache_ident_always_uppercased_fn_name (args : MacroArgs)
    (f : ItemFn) (e : Expanded) (kvs : List (String × String)) (v : String)
    (hx : cachedExpand 0 args f = .ok e)
    (hname : ("name", v) ∈ kvs) :
    e.cacheStatic.ident = upperString f.sig.ident ∧
    (MacroArgs.from_list kvs).isOk = false := by
  constructor
  · rw [cachedExpand] at hx
    obtain ⟨a1, h1, hx⟩ := except_bind_ok hx
    obtain ⟨a2, h2, hx⟩ := except_bind_ok hx
    obtain ⟨a3, h3, hx⟩ := except_bind_ok hx
    obtain ⟨a4, h4, hx⟩ := except_bind_ok hx
    obtain rfl := (Except.ok.inj hx)
    rfl
  · cases hok : MacroArgs.from_list kvs with
    | error msg => rfl
    | ok a =>
      exfalso
      have hmem := from_list_aux_ok_fields kvs {} a hok ("name", v) hname
      simp [acceptedFields] at hmem

/-- Witness for the cache-name theorem: with no options the expansion of
`fn foo` names its static by the upper-cased function name, and an
argument list supplying a name option fails to parse. -/
theorem cache_ident_always_uppercased_fn_name_witness :
    (MacroArgs.from_list [("name", "BAR")]).isOk = false ∧
    ∃ e, cachedExpand 0 ({} : MacroArgs) fnFoo = .ok e ∧
      e.cacheStatic.ident = upperString fnFoo.sig.ident := by
  obtain ⟨e, he⟩ : ∃ e, cachedExpand 0 ({} : MacroArgs) fnFoo = .ok e :=
    ⟨_, rfl⟩
  have h := cache_ident_always_uppercased_fn_name {} fnFoo e
    [("name", "BAR")] "BAR" he (by simp)
  exact ⟨h.2, e, he, h.1⟩

/-- C10: the expansion is a pure function of the attribute arguments and
the decorated function; in particular its output is independent of the
process-wide hasher state over which the collected hash-sets are built
(they are only ever queried for membership), so invocations with
identical inputs emit identical code. -/
theorem expansion_independent_of_hasher_seed (s₁ s₂ : Nat)
    (args : MacroArgs) (f : ItemFn) :
    cachedExpand s₁ args f = cachedExpand s₂ args f := by
  obtain ⟨size, ttl, key, convert, ctype, ccreate⟩ := args
  cases key <;> cases convert <;> cases ctype <;>
    simp only [cachedExpand, make_cache_key_type_filtered, selectByIdx,
      Option.map_none', Option.map_some', contains_hashSetNat,
      contains_hashSetOfList]

end ColdMoka
